import Mathlib

/-!
Verification of the openstack-resource-controller trunk controller and
deletion-guard coordination subsystem against its natural-language
specification.  The Go sources are shallowly embedded: pure computations
become Lean functions, remote calls are modelled by passing their results
as explicit inputs, and the sequence of remote calls a function issues is
returned as data.
-/

namespace ORC

/-! ## The composable reconcile status

The `progress` package is not part of the provided sources (only its
callers are), so the status type is modelled from the spec. -/

/-- Modelled from the spec: the reason of a blocking wait produced by
`waitingOn` — `WaitingOnCreation` if the dependency is absent,
`WaitingOnReady` if it exists but is not ready (§4.1, §4.2). -/
inductive WaitReasonKind where
  | waitingOnCreation
  | waitingOnReady
  deriving DecidableEq, Repr

/-- Modelled from the spec: one blocking wait reason, recording the kind and
name of the object being waited for (`waitingOn(kind, name, reason)`, §4.1). -/
structure WaitEvent where
  objectKind : String
  name : String
  reason : WaitReasonKind
  deriving DecidableEq, Repr

/-- Modelled from the spec: the error classification carried by a reconcile
status — Terminal (user must fix the spec) or Transient (retry with
backoff) (§4.1, §7). A terminal error records its condition reason. -/
inductive StatusError where
  | terminal (reason : String) (msg : String)
  | transient (msg : String)
  deriving DecidableEq, Repr

/-- Modelled from the spec: a raw error as returned by low-level operations,
either explicitly marked non-retryable (terminal) or plain (§4.1
`wrapError`). -/
inductive GoError where
  | terminalMarked (reason : String) (msg : String)
  | plain (msg : String)
  deriving DecidableEq, Repr

/-- Modelled from the spec: `ReconcileStatus` accumulates wait reasons, an
error classification, and a needs-refresh flag (§3, §4.1). -/
structure ReconcileStatus where
  waits : Finset WaitEvent
  error : Option StatusError
  refresh : Bool
  deriving DecidableEq

/-- Modelled from the spec: the OK (empty) reconcile status, the identity of
merge (§4.1). In Go this is the nil `ReconcileStatus`. -/
def okStatus : ReconcileStatus := ⟨∅, none, false⟩

/-- Modelled from the spec: `waitingOn(kind, name, reason)` — a non-error,
blocking status carrying one wait reason (§4.1). -/
def waitingOnObject (objectKind name : String) (reason : WaitReasonKind) : ReconcileStatus :=
  ⟨{⟨objectKind, name, reason⟩}, none, false⟩

/-- Modelled from the spec: `wrapError` classifies an error as Terminal if
explicitly marked non-retryable, else Transient (§4.1). -/
def classifyError : GoError → StatusError
  | .terminalMarked r m => .terminal r m
  | .plain m => .transient m

/-- Modelled from the spec: a reconcile status carrying one wrapped error
(§4.1 `wrapError`). -/
def wrapError (e : GoError) : ReconcileStatus :=
  ⟨∅, some (classifyError e), false⟩

/-- Modelled from the spec: a reconcile status that requests an immediate
in-pass refresh of the remote snapshot (§4.1 `needsRefresh`). -/
def needsRefreshStatus : ReconcileStatus :=
  ⟨∅, none, true⟩

/-- Modelled from the spec: error merge under the severity order
Terminal > Transient > OK, with the first error of the highest severity
winning; a Terminal error is never overwritten (§4.1 `merge`). -/
def mergeError : Option StatusError → Option StatusError → Option StatusError
  | some (.terminal r m), _ => some (.terminal r m)
  | some (.transient _), some (.terminal r m) => some (.terminal r m)
  | some (.transient m), _ => some (.transient m)
  | none, b => b

/-- Modelled from the spec: `merge(a, b)` — errors combine by severity with
the first Terminal winning, wait reasons are unioned and the refresh flags
are ORed (§4.1). In Go this is `WithReconcileStatus`. -/
def mergeStatus (a b : ReconcileStatus) : ReconcileStatus :=
  ⟨a.waits ∪ b.waits, mergeError a.error b.error, a.refresh || b.refresh⟩

/-- Modelled from the spec: the blocking component of `needsReschedule()` —
true when the status carries any wait reason or any error, i.e. the pass
must stop and requeue rather than proceed (§4.1). -/
def needsReschedule (rs : ReconcileStatus) : Bool :=
  !(rs.waits = ∅ : Bool) || rs.error.isSome

/-- Whether a status carries a Terminal error. -/
def statusIsTerminal (rs : ReconcileStatus) : Bool :=
  match rs.error with
  | some (.terminal _ _) => true
  | _ => false

/-- Whether a status carries a Transient error. -/
def statusIsTransient (rs : ReconcileStatus) : Bool :=
  match rs.error with
  | some (.transient _) => true
  | _ => false

/-! ## Deletion guard registry

Embedding of `internal/util/dependency/deletion_guard_registry.go`. A
checker is a function of the dependency object; its error is a `String`
option. Registration appends under the (finalizer, depKind) key. -/

/-- A `GuardChecker` returns (hasReferences, err) for a dependency object
(`deletion_guard_registry.go`, `GuardChecker`). -/
def GuardChecker (δ : Type) : Type := δ → Bool × Option String

/-- The deletion guard registry: an ordered association of
(finalizer, depKind) keys to checker functions, in registration order
(`deletionGuardRegistry.guards`). -/
structure DeletionGuardRegistry (δ : Type) where
  guards : List ((String × String) × GuardChecker δ)

/-- `RegisterGuard`: append-only registration of a checker under the
(finalizer, depKind) key. -/
def registerGuard (reg : DeletionGuardRegistry δ) (finalizer depKind : String)
    (checker : GuardChecker δ) : DeletionGuardRegistry δ :=
  ⟨reg.guards ++ [((finalizer, depKind), checker)]⟩

/-- The checkers registered under a (finalizer, depKind) key, in
registration order (the map lookup `globalRegistry.guards[key]`). -/
def lookupGuards (reg : DeletionGuardRegistry δ) (finalizer depKind : String) :
    List (GuardChecker δ) :=
  (reg.guards.filter (fun g => g.1.1 == finalizer && g.1.2 == depKind)).map (·.2)

/-- The error wrapping applied by `CheckAllGuards` when a checker fails
(`fmt.Errorf("deletion guard check failed: %w", checkErr)`). -/
def wrapGuardError (e : String) : String :=
  "deletion guard check failed: " ++ e

/-- The iteration of `CheckAllGuards` over the registered checkers: the
first checker that errors yields (true, wrapped error); otherwise the first
checker that reports references yields (true, nil); if every checker
returns (false, nil) the result is (false, nil). -/
def checkGuardList (dep : δ) : List (GuardChecker δ) → Bool × Option String
  | [] => (false, none)
  | c :: rest =>
    let r := c dep
    match r.2 with
    | some e => (true, some (wrapGuardError e))
    | none => if r.1 then (true, none) else checkGuardList dep rest

/-- `CheckAllGuards(ctx, client, dep, finalizer, depKind)`: (false, nil)
with zero registered checkers, otherwise the in-order check of all
registered checkers. -/
def checkAllGuards (reg : DeletionGuardRegistry δ) (dep : δ)
    (finalizer depKind : String) : Bool × Option String :=
  let checkers := lookupGuards reg finalizer depKind
  if checkers.isEmpty then (false, none)
  else checkGuardList dep checkers

/-! ## Trunk data model

Embedding of the parts of `api/v1alpha1/trunk_types.go` and the
gophercloud trunk types that the actuator reads. -/

/-- `TrunkResourceSpec` (trunk_types.go): the fields the actuator's
create/update logic reads. `name`, `description` and `adminStateUp` are
optional pointers in Go. -/
structure TrunkResourceSpec where
  name : Option String
  description : Option String
  adminStateUp : Option Bool
  deriving DecidableEq, Repr

/-- The ORC Trunk object: its own Kubernetes name and the optional managed
resource spec (`obj.Name`, `obj.Spec.Resource`). -/
structure TrunkObject where
  name : String
  resource : Option TrunkResourceSpec
  deriving DecidableEq, Repr

/-- The remote OpenStack trunk (`trunks.Trunk`): the fields read by the
update and subport logic. -/
structure OSTrunk where
  id : String
  name : String
  description : String
  adminStateUp : Bool
  revisionNumber : Int
  deriving DecidableEq, Repr

/-- A trunk subport (`trunks.Subport`): port ID, segmentation type and
segmentation ID. -/
structure Subport where
  portID : String
  segmentationType : String
  segmentationID : Int
  deriving DecidableEq, Repr

/-- `getResourceName` (actuator_test.go / the generated adapter): the
remote resource name is `spec.resource.name` when set, else the object's
own name. -/
def getResourceName (obj : TrunkObject) : String :=
  match obj.resource with
  | some r =>
    match r.name with
    | some n => n
    | none => obj.name
  | none => obj.name

/-! ## Subport reconciliation

Embedding of `reconcileSubports` (first actuator variant). The remote
state `current` (from `ListTrunkSubports`) and the resolved desired state
`desired` (from the spec with resolved port IDs) are inputs; the function
returns the list of remote calls issued, in order, and the resulting
status. Go builds maps keyed by port ID from both lists; the embedding
uses association-list lookup, which agrees with the Go map whenever the
port IDs are distinct (the keyed-set premise of the spec). -/

/-- Lookup of a subport by port ID: the Go map access
`currentMap[portID]` / `desiredMap[portID]`. -/
def lookupSubport (l : List Subport) (id : String) : Option Subport :=
  l.find? (fun s => s.portID == id)

/-- The port IDs of a subport list are pairwise distinct (keyed set). -/
def keysNodup (l : List Subport) : Prop :=
  l.Pairwise (fun a b => a.portID ≠ b.portID)

instance (l : List Subport) : Decidable (keysNodup l) := by
  unfold keysNodup; infer_instance

/-- The parameter comparison of `reconcileSubports`: a subport present in
both sets is changed when its segmentation type or segmentation ID
differ. -/
def subportChanged (current desired : Subport) : Bool :=
  current.segmentationType != desired.segmentationType ||
    current.segmentationID != desired.segmentationID

/-- The `toAdd` membership test of `reconcileSubports`: a desired subport
is added when its port ID is not observed, or is observed with different
segmentation parameters. -/
def subportNeedsAdd (current : List Subport) (d : Subport) : Bool :=
  match lookupSubport current d.portID with
  | none => true
  | some c => subportChanged c d

/-- The `toAdd` list of `reconcileSubports`: desired subports that are
missing from the remote or present with different parameters. -/
def toAdd (current desired : List Subport) : List Subport :=
  desired.filter (subportNeedsAdd current)

/-- The changed-member test: present in both sets but with different
segmentation parameters. These members are removed immediately inside the
`toAdd` loop of `reconcileSubports`. -/
def subportIsChanged (current : List Subport) (d : Subport) : Bool :=
  match lookupSubport current d.portID with
  | none => false
  | some c => subportChanged c d

/-- The port IDs removed one-by-one inside the `toAdd` loop of
`reconcileSubports` (members present in both sets with differing
parameters). -/
def immediateRemovals (current desired : List Subport) : List String :=
  (desired.filter (subportIsChanged current)).map (·.portID)

/-- The `toRemove` list of `reconcileSubports`: port IDs observed on the
remote trunk but absent from the desired set. -/
def toRemove (current desired : List Subport) : List String :=
  (current.filter (fun c => (lookupSubport desired c.portID).isNone)).map (·.portID)

/-- All port IDs removed by one run of `reconcileSubports`: the immediate
removals of changed members followed by the batch removal of extraneous
members. -/
def allRemovalIDs (current desired : List Subport) : List String :=
  immediateRemovals current desired ++ toRemove current desired

/-- A remote call issued by `reconcileSubports`: `RemoveSubports` with a
list of port IDs, or `AddSubports` with a list of subports. -/
inductive SubportCall where
  | removeSubports (portIDs : List String)
  | addSubports (subports : List Subport)
  deriving DecidableEq, Repr

/-- Whether a subport call is a removal. -/
def SubportCall.isRemove : SubportCall → Bool
  | .removeSubports _ => true
  | .addSubports _ => false

/-- The result of `reconcileSubports` on the success path: the ordered list
of remote calls issued and the returned status. -/
structure SubportReconcileResult where
  calls : List SubportCall
  status : ReconcileStatus
  deriving DecidableEq

/-- `reconcileSubports` (success path): changed members are removed
one-by-one while computing `toAdd`, then the extraneous members are removed
in one batch, then the additions are applied in one batch; the status is
needs-refresh when anything was added or removed, else OK (nil). -/
def reconcileSubports (current desired : List Subport) : SubportReconcileResult :=
  let adds := toAdd current desired
  let immediates := immediateRemovals current desired
  let removes := toRemove current desired
  { calls :=
      immediates.map (fun p => .removeSubports [p])
        ++ (if removes.isEmpty then [] else [.removeSubports removes])
        ++ (if adds.isEmpty then [] else [.addSubports adds])
    status := if adds.isEmpty && removes.isEmpty then okStatus else needsRefreshStatus }

/-- Applying a run's removals to the observed remote state: every subport
whose port ID was removed disappears. -/
def applyRemovals (state : List Subport) (ids : List String) : List Subport :=
  state.filter (fun s => !(ids.contains s.portID))

/-- Applying a run's additions to the remote state. -/
def applyAdditions (state : List Subport) (adds : List Subport) : List Subport :=
  state ++ adds

/-! ## Attribute update

Embedding of both update variants: the inline comparisons of the first
variant's `updateResource`, and the `handleNameUpdate` /
`handleDescriptionUpdate` / `handleAdminStateUpUpdate` helpers of the
second variant. -/

/-- `trunks.UpdateOpts`: unset (nil) fields are omitted from the update
request. -/
structure UpdateOpts where
  name : Option String := none
  description : Option String := none
  adminStateUp : Option Bool := none
  revisionNumber : Option Int := none
  deriving DecidableEq, Repr

/-- `handleNameUpdate` (second variant): set the name when the remote name
differs from the resolved resource name. -/
def handleNameUpdate (obj : TrunkObject) (osResource : OSTrunk)
    (updateOpts : UpdateOpts) : UpdateOpts :=
  let name := getResourceName obj
  if osResource.name != name then { updateOpts with name := some name } else updateOpts

/-- `handleDescriptionUpdate` (second variant): set the description when
the remote description differs from the spec description (dereferenced
with default ""). -/
def handleDescriptionUpdate (resource : TrunkResourceSpec) (osResource : OSTrunk)
    (updateOpts : UpdateOpts) : UpdateOpts :=
  let description := resource.description.getD ""
  if osResource.description != description then
    { updateOpts with description := some description }
  else updateOpts

/-- `handleAdminStateUpUpdate` (second variant): dereference the spec value
with documented default `true` and set it when the remote value differs. -/
def handleAdminStateUpUpdate (resource : TrunkResourceSpec) (osResource : OSTrunk)
    (updateOpts : UpdateOpts) : UpdateOpts :=
  let adminStateUp := resource.adminStateUp.getD true
  if osResource.adminStateUp != adminStateUp then
    { updateOpts with adminStateUp := some adminStateUp }
  else updateOpts

/-- The inline adminStateUp comparison of the first variant's
`updateResource`: only a set spec value that differs from the remote value
produces an update. -/
def updateAdminStateUpInline (resource : TrunkResourceSpec) (osResource : OSTrunk)
    (updateOpts : UpdateOpts) : UpdateOpts :=
  match resource.adminStateUp with
  | some b => if b != osResource.adminStateUp then { updateOpts with adminStateUp := some b }
              else updateOpts
  | none => updateOpts

/-- The update options and `needsUpdate` flag computed by the first
variant's `updateResource` before deciding whether to call the remote
API. -/
def updateResourceOpts (obj : TrunkObject) (resource : TrunkResourceSpec)
    (osResource : OSTrunk) : UpdateOpts × Bool :=
  let name := getResourceName obj
  let s1 : UpdateOpts × Bool :=
    if osResource.name != name then ({ name := some name }, true) else ({}, false)
  let description := resource.description.getD ""
  let s2 : UpdateOpts × Bool :=
    if osResource.description != description then
      ({ s1.1 with description := some description }, true)
    else s1
  match resource.adminStateUp with
  | some b =>
    if b != osResource.adminStateUp then ({ s2.1 with adminStateUp := some b }, true) else s2
  | none => s2

/-- An error returned by a remote OpenStack call, distinguishable as a
duplicate/conflict error or a generic failure (`orcerrors.IsConflict`). -/
inductive OSError where
  | conflictErr (msg : String)
  | otherErr (msg : String)
  deriving DecidableEq, Repr

/-- `orcerrors.IsConflict`: whether a remote error is a duplicate/conflict
error. -/
def OSError.isConflict : OSError → Bool
  | .conflictErr _ => true
  | .otherErr _ => false

/-- The message of a remote error. -/
def OSError.msg : OSError → String
  | .conflictErr m => m
  | .otherErr m => m

/-- The result of one run of the first variant's `updateResource`: the
update options sent to the remote API (`none` when no call was made) and
the returned status. The outcome of the remote call, when one is made, is
the `callResult` input. -/
structure UpdateResourceResult where
  sentOpts : Option UpdateOpts
  status : ReconcileStatus
  deriving DecidableEq

/-- `updateResource` (first variant): compute the needed changes; with no
changes return nil without calling the remote API; otherwise send the
update with the remote revision number, turning a conflict into a Terminal
error, propagating other errors, and returning needs-refresh on
success. -/
def updateResource (obj : TrunkObject) (osResource : OSTrunk)
    (callResult : Except OSError Unit) : UpdateResourceResult :=
  match obj.resource with
  | none =>
    ⟨none, wrapError (.terminalMarked "InvalidConfiguration"
      "Update requested, but spec.resource is not set")⟩
  | some resource =>
    let (opts, needsUpd) := updateResourceOpts obj resource osResource
    if !needsUpd then ⟨none, okStatus⟩
    else
      let sent := { opts with revisionNumber := some osResource.revisionNumber }
      match callResult with
      | .ok _ => ⟨some sent, needsRefreshStatus⟩
      | .error e =>
        ⟨some sent, wrapError (if e.isConflict then
          .terminalMarked "InvalidConfiguration"
            ("invalid configuration updating resource: " ++ e.msg)
          else .plain e.msg)⟩

/-! ## Resource creation

Embedding of the error-classification path of `CreateResource` (first
variant): the result of the remote `CreateTrunk` call is an input. -/

/-- `trunks.CreateOpts` as built by `CreateResource`: the fields derived
from the object. -/
structure CreateOpts where
  portID : String
  name : String
  description : String
  adminStateUp : Option Bool
  projectID : String
  deriving DecidableEq, Repr

/-- The create options built by `CreateResource` from the object and the
resolved dependency IDs. -/
def buildCreateOpts (obj : TrunkObject) (resource : TrunkResourceSpec)
    (portID projectID : String) : CreateOpts :=
  { portID := portID
    name := getResourceName obj
    description := resource.description.getD ""
    adminStateUp := resource.adminStateUp
    projectID := projectID }

/-- The `ListOpts.Name` used by `ListOSResourcesForAdoption`: the resolved
resource name. -/
def adoptionListName (obj : TrunkObject) : String :=
  getResourceName obj

/-- The tail of `CreateResource`: on a failed remote create, a conflict
error is marked Terminal (invalid configuration) before wrapping; other
errors wrap as-is (Transient); on success the resource is returned. -/
def createTrunkResult (createCall : Except OSError OSTrunk) :
    Except ReconcileStatus OSTrunk :=
  match createCall with
  | .ok t => .ok t
  | .error e =>
    .error (wrapError (if e.isConflict then
      .terminalMarked "InvalidConfiguration"
        ("invalid configuration creating resource: " ++ e.msg)
      else .plain e.msg))

/-! ## Import listing

Embedding of `ListOSResourcesForImport`: the results of the Kubernetes
`Get` calls for the referenced Port and Project are inputs. -/

/-- The outcome of a Kubernetes `Get` for a referenced dependency: not
found, a transport error, or the object with its availability condition and
status ID. -/
inductive GetResult where
  | notFound
  | getErr (msg : String)
  | found (available : Bool) (id : Option String)
  deriving DecidableEq, Repr

/-- The readiness predicate applied to referenced objects: Available
condition true and status ID set. -/
def depIsReady : GetResult → Bool
  | .found available id => available && id.isSome
  | _ => false

/-- The trunk import filter fields that reference other ORC objects
(`TrunkFilter.PortRef`, `TrunkFilter.ProjectRef`). -/
structure TrunkImportFilter where
  portRef : Option String
  projectRef : Option String
  deriving DecidableEq, Repr

/-- The Kubernetes objects visible to `ListOSResourcesForImport`: Get
results for Ports and Projects by name. -/
structure ImportEnv where
  ports : String → GetResult
  projects : String → GetResult

/-- The status contribution of one referenced object in
`ListOSResourcesForImport`: WaitingOnCreation when absent, a wrapped
(transient) error when the Get fails, WaitingOnReady when present but not
Available or without ID, nothing when ready. -/
def importDepStatus (objectKind name : String) (g : GetResult) : ReconcileStatus :=
  match g with
  | .notFound => waitingOnObject objectKind name .waitingOnCreation
  | .getErr m =>
    wrapError (.plain ("fetching " ++ objectKind ++ " " ++ name ++ ": " ++ m))
  | .found available id =>
    if available && id.isSome then okStatus
    else waitingOnObject objectKind name .waitingOnReady

/-- The status ID a referenced object contributes to the remote list
filter: dereferenced with default "" and left "" when the Get did not
return a ready object (the Go variable stays the zero object). -/
def resolvedID (ref : Option String) (get : String → GetResult) : String :=
  match ref with
  | none => ""
  | some n =>
    match get n with
    | .found _ (some id) => id
    | _ => ""

/-- The outcome of `ListOSResourcesForImport`: blocked with the accumulated
status, or proceeding to list remote trunks with the resolved port and
project IDs. -/
inductive ImportOutcome where
  | blocked (rs : ReconcileStatus)
  | proceed (portID projectID : String)
  deriving DecidableEq

/-- The status accumulated by `ListOSResourcesForImport` over the set
references, in order: the Port reference's contribution merged with the
Project reference's contribution. -/
def importAccumStatus (filter : TrunkImportFilter) (env : ImportEnv) : ReconcileStatus :=
  let rs1 :=
    match filter.portRef with
    | some n => mergeStatus okStatus (importDepStatus "Port" n (env.ports n))
    | none => okStatus
  match filter.projectRef with
  | some n => mergeStatus rs1 (importDepStatus "Project" n (env.projects n))
  | none => rs1

/-- `ListOSResourcesForImport`: accumulate a wait/error status for each set
reference, stop (without listing) when the accumulated status needs a
reschedule, else list remote resources with the resolved IDs. -/
def listOSResourcesForImport (filter : TrunkImportFilter) (env : ImportEnv) :
    ImportOutcome :=
  if needsReschedule (importAccumStatus filter env) then
    .blocked (importAccumStatus filter env)
  else
    .proceed (resolvedID filter.portRef env.ports) (resolvedID filter.projectRef env.projects)


/-! ## Lemmas about the guard check iteration -/

theorem checkGuardList_nil (dep : δ) : checkGuardList dep [] = (false, none) := rfl

theorem checkGuardList_cons_err (dep : δ) (c : GuardChecker δ)
    (rest : List (GuardChecker δ)) (e : String) (he : (c dep).2 = some e) :
    checkGuardList dep (c :: rest) = (true, some (wrapGuardError e)) := by
  simp [checkGuardList, he]

theorem checkGuardList_cons_refs (dep : δ) (c : GuardChecker δ)
    (rest : List (GuardChecker δ)) (he : (c dep).2 = none) (hr : (c dep).1 = true) :
    checkGuardList dep (c :: rest) = (true, none) := by
  simp [checkGuardList, he, hr]

theorem checkGuardList_cons_clear (dep : δ) (c : GuardChecker δ)
    (rest : List (GuardChecker δ)) (hc : c dep = (false, none)) :
    checkGuardList dep (c :: rest) = checkGuardList dep rest := by
  simp [checkGuardList, hc]

theorem checkGuardList_all_clear (dep : δ) (cs : List (GuardChecker δ))
    (h : ∀ c ∈ cs, c dep = (false, none)) : checkGuardList dep cs = (false, none) := by
  induction cs with
  | nil => rfl
  | cons c rest ih =>
    rw [checkGuardList_cons_clear dep c rest (h c (List.mem_cons_self c rest))]
    exact ih fun c' hc' => h c' (List.mem_cons_of_mem c hc')

theorem checkGuardList_clear_of_false (dep : δ) (cs : List (GuardChecker δ))
    (h : (checkGuardList dep cs).1 = false) : ∀ c ∈ cs, c dep = (false, none) := by
  induction cs with
  | nil => intro c hc; exact absurd hc (List.not_mem_nil c)
  | cons c rest ih =>
    intro c' hc'
    rcases he : (c dep).2 with _ | e
    · rcases hr : (c dep).1
      · have hclear : c dep = (false, none) := Prod.ext hr he
        rw [checkGuardList_cons_clear dep c rest hclear] at h
        rcases List.mem_cons.mp hc' with rfl | hmem
        · exact hclear
        · exact ih h c' hmem
      · rw [checkGuardList_cons_refs dep c rest he hr] at h; simp at h
    · rw [checkGuardList_cons_err dep c rest e he] at h; simp at h

theorem checkGuardList_first_err (dep : δ) (pre : List (GuardChecker δ))
    (c : GuardChecker δ) (post : List (GuardChecker δ)) (e : String)
    (hpre : ∀ p ∈ pre, p dep = (false, none)) (he : (c dep).2 = some e) :
    checkGuardList dep (pre ++ c :: post) = (true, some (wrapGuardError e)) := by
  induction pre with
  | nil => exact checkGuardList_cons_err dep c post e he
  | cons p rest ih =>
    rw [List.cons_append,
      checkGuardList_cons_clear dep p _ (hpre p (List.mem_cons_self p rest))]
    exact ih fun p' hp' => hpre p' (List.mem_cons_of_mem p hp')

theorem checkGuardList_first_refs (dep : δ) (pre : List (GuardChecker δ))
    (c : GuardChecker δ) (post : List (GuardChecker δ))
    (hpre : ∀ p ∈ pre, p dep = (false, none))
    (he : (c dep).2 = none) (hr : (c dep).1 = true) :
    checkGuardList dep (pre ++ c :: post) = (true, none) := by
  induction pre with
  | nil => exact checkGuardList_cons_refs dep c post he hr
  | cons p rest ih =>
    rw [List.cons_append,
      checkGuardList_cons_clear dep p _ (hpre p (List.mem_cons_self p rest))]
    exact ih fun p' hp' => hpre p' (List.mem_cons_of_mem p hp')

theorem checkAllGuards_eq_checkGuardList (reg : DeletionGuardRegistry δ) (dep : δ)
    (finalizer depKind : String) :
    checkAllGuards reg dep finalizer depKind =
      checkGuardList dep (lookupGuards reg finalizer depKind) := by
  unfold checkAllGuards
  rcases h : lookupGuards reg finalizer depKind with _ | ⟨c, cs⟩
  · rfl
  · rfl

/-- C1: `CheckAllGuards` returns (false, nil) with zero checkers registered
under the (finalizer, kind) key; it evaluates the registered checkers in
registration order, returning (true, wrapped error) when the first checker
not returning (false, nil) errors, (true, nil) when the first such checker
reports references, and (false, nil) exactly when every checker returned
(false, nil) — so hasReferences = false guarantees no guard errored or
reported references, and the finalizer is never cleared otherwise. -/
theorem checkAllGuards_spec (reg : DeletionGuardRegistry δ) (dep : δ)
    (finalizer depKind : String) :
    (lookupGuards reg finalizer depKind = [] →
      checkAllGuards reg dep finalizer depKind = (false, none)) ∧
    (∀ pre c post, lookupGuards reg finalizer depKind = pre ++ c :: post →
      (∀ p ∈ pre, p dep = (false, none)) →
      (∀ e, (c dep).2 = some e →
        checkAllGuards reg dep finalizer depKind = (true, some (wrapGuardError e))) ∧
      ((c dep).2 = none → (c dep).1 = true →
        checkAllGuards reg dep finalizer depKind = (true, none))) ∧
    ((∀ c ∈ lookupGuards reg finalizer depKind, c dep = (false, none)) →
      checkAllGuards reg dep finalizer depKind = (false, none)) ∧
    ((checkAllGuards reg dep finalizer depKind).1 = false →
      ∀ c ∈ lookupGuards reg finalizer depKind, c dep = (false, none)) := by
  rw [checkAllGuards_eq_checkGuardList]
  refine ⟨fun h => by rw [h]; rfl, fun pre c post hsplit hpre => ?_, ?_, ?_⟩
  · rw [hsplit]
    exact ⟨fun e he => checkGuardList_first_err dep pre c post e hpre he,
      fun he hr => checkGuardList_first_refs dep pre c post hpre he hr⟩
  · exact checkGuardList_all_clear dep _
  · exact checkGuardList_clear_of_false dep _

/-- A two-checker registry used to witness C1: the first checker reports no
references, the second errors. -/
def c1Registry : DeletionGuardRegistry Unit :=
  registerGuard
    (registerGuard ⟨[]⟩ "orc-finalizer" "Port" (fun _ => (false, none)))
    "orc-finalizer" "Port" (fun _ => (false, some "boom"))

/-- C1 witness: on a concrete registry whose first checker is clear and
whose second errors, `CheckAllGuards` returns (true, wrapped error). -/
theorem checkAllGuards_spec_witness :
    checkAllGuards c1Registry () "orc-finalizer" "Port" =
      (true, some (wrapGuardError "boom")) :=
  ((checkAllGuards_spec c1Registry () "orc-finalizer" "Port").2.1
    [fun _ => (false, none)] (fun _ => (false, some "boom")) [] rfl
    (by intro p hp; rw [List.mem_singleton.mp hp])).1 "boom" rfl

/-- A registry with one registered checker that returns (false, error),
used to refute C2 as stated. -/
def c2Registry : DeletionGuardRegistry Unit :=
  registerGuard ⟨[]⟩ "orc-finalizer" "Port" (fun _ => (false, some "boom"))

/-- C2 counterexample: with a single registered checker that returns
(false, error), `CheckAllGuards` returns hasReferences = true although no
registered checker returns true — refuting "hasReferences = true iff at
least one checker returns true". -/
theorem checkAllGuards_refs_iff_counterexample :
    (checkAllGuards c2Registry () "orc-finalizer" "Port").1 = true ∧
    ∀ c ∈ lookupGuards c2Registry "orc-finalizer" "Port", (c ()).1 = false := by
  refine ⟨rfl, fun c hc => ?_⟩
  have h : c = fun _ => ((false : Bool), some "boom") := List.mem_singleton.mp hc
  rw [h]

/-- C2 (amended): `CheckAllGuards` returns hasReferences = true iff at
least one registered checker reports references or errors; it returns a
non-nil error iff the first registered checker (in registration order)
that does not return (false, nil) errors; with zero registered checkers it
returns (false, nil). -/
theorem checkAllGuards_amended (reg : DeletionGuardRegistry δ) (dep : δ)
    (finalizer depKind : String) :
    ((checkAllGuards reg dep finalizer depKind).1 = true ↔
      ∃ c ∈ lookupGuards reg finalizer depKind,
        (c dep).1 = true ∨ (c dep).2.isSome) ∧
    ((checkAllGuards reg dep finalizer depKind).2.isSome ↔
      ∃ pre c post, lookupGuards reg finalizer depKind = pre ++ c :: post ∧
        (∀ p ∈ pre, p dep = (false, none)) ∧ (c dep).2.isSome) ∧
    (lookupGuards reg finalizer depKind = [] →
      checkAllGuards reg dep finalizer depKind = (false, none)) := by
  rw [checkAllGuards_eq_checkGuardList]
  refine ⟨?_, ?_, fun h => by rw [h]; rfl⟩
  · induction lookupGuards reg finalizer depKind with
    | nil => simp [checkGuardList_nil]
    | cons c rest ih =>
      rcases he : (c dep).2 with _ | e
      · rcases hr : (c dep).1
        · rw [checkGuardList_cons_clear dep c rest (Prod.ext hr he)]
          constructor
          · intro h
            obtain ⟨c', hc', hor⟩ := ih.mp h
            exact ⟨c', List.mem_cons_of_mem c hc', hor⟩
          · rintro ⟨c', hc', hor⟩
            rcases List.mem_cons.mp hc' with rfl | hmem
            · rw [hr, he] at hor; simp at hor
            · exact ih.mpr ⟨c', hmem, hor⟩
        · rw [checkGuardList_cons_refs dep c rest he hr]
          exact ⟨fun _ => ⟨c, List.mem_cons_self c rest, Or.inl hr⟩, fun _ => rfl⟩
      · rw [checkGuardList_cons_err dep c rest e he]
        exact ⟨fun _ => ⟨c, List.mem_cons_self c rest, Or.inr (by rw [he]; rfl)⟩,
          fun _ => rfl⟩
  · induction lookupGuards reg finalizer depKind with
    | nil =>
      rw [checkGuardList_nil]
      constructor
      · intro h; simp at h
      · rintro ⟨pre, c, post, hsplit, -, -⟩
        rcases pre with _ | ⟨a, pre⟩ <;> simp at hsplit
    | cons c rest ih =>
      rcases he : (c dep).2 with _ | e
      · rcases hr : (c dep).1
        · rw [checkGuardList_cons_clear dep c rest (Prod.ext hr he)]
          constructor
          · intro h
            obtain ⟨pre, c', post, hsplit, hpre, herr⟩ := ih.mp h
            refine ⟨c :: pre, c', post, by rw [hsplit, List.cons_append], ?_, herr⟩
            intro p hp
            rcases List.mem_cons.mp hp with rfl | hmem
            · exact Prod.ext hr he
            · exact hpre p hmem
          · rintro ⟨pre, c', post, hsplit, hpre, herr⟩
            rcases pre with _ | ⟨a, pre⟩
            · simp only [List.nil_append, List.cons.injEq] at hsplit
              rw [← hsplit.1, he] at herr; simp at herr
            · rw [List.cons_append, List.cons.injEq] at hsplit
              refine ih.mpr ⟨pre, c', post, hsplit.2, fun p hp => ?_, herr⟩
              exact hpre p (List.mem_cons_of_mem a hp)
        · rw [checkGuardList_cons_refs dep c rest he hr]
          constructor
          · intro h; simp at h
          · rintro ⟨pre, c', post, hsplit, hpre, herr⟩
            rcases pre with _ | ⟨a, pre⟩
            · simp only [List.nil_append, List.cons.injEq] at hsplit
              rw [← hsplit.1, he] at herr; simp at herr
            · rw [List.cons_append, List.cons.injEq] at hsplit
              have ha := hpre a (List.mem_cons_self a pre)
              rw [hsplit.1, ha] at hr
              simp at hr
      · rw [checkGuardList_cons_err dep c rest e he]
        simp only [Option.isSome_some, true_iff]
        exact ⟨[], c, rest, rfl, by simp, by rw [he]; rfl⟩

/-- C2 witness (for the amended claim): the amended characterization,
applied to the concrete single-erroring-checker registry, yields that an
error is returned. -/
theorem checkAllGuards_amended_witness :
    (checkAllGuards c2Registry () "orc-finalizer" "Port").2.isSome = true :=
  ((checkAllGuards_amended c2Registry () "orc-finalizer" "Port").2.1).mpr
    ⟨[], fun _ => (false, some "boom"), [], rfl, by simp, rfl⟩

/-! ## Lemmas about keyed subport lookup -/

theorem lookupSubport_nil (id : String) : lookupSubport [] id = none := rfl

theorem lookupSubport_cons_of_pos (a : Subport) (t : List Subport) (id : String)
    (h : a.portID = id) : lookupSubport (a :: t) id = some a :=
  List.find?_cons_of_pos _ (by simp [h])

theorem lookupSubport_cons_of_neg (a : Subport) (t : List Subport) (id : String)
    (h : a.portID ≠ id) : lookupSubport (a :: t) id = lookupSubport t id :=
  List.find?_cons_of_neg _ (by simp [h])

theorem lookupSubport_eq_none_iff (l : List Subport) (id : String) :
    lookupSubport l id = none ↔ ∀ s ∈ l, s.portID ≠ id := by
  unfold lookupSubport
  rw [List.find?_eq_none]
  simp

theorem lookupSubport_key (l : List Subport) (id : String) (s : Subport)
    (h : lookupSubport l id = some s) : s ∈ l ∧ s.portID = id := by
  refine ⟨List.mem_of_find?_eq_some h, ?_⟩
  simpa using List.find?_some h

theorem lookupSubport_of_mem_nodup (l : List Subport) (s : Subport)
    (hnd : keysNodup l) (hs : s ∈ l) : lookupSubport l s.portID = some s := by
  induction l with
  | nil => cases hs
  | cons a t ih =>
    rcases List.mem_cons.mp hs with rfl | hmem
    · exact lookupSubport_cons_of_pos _ _ _ rfl
    · have hne : a.portID ≠ s.portID := (List.pairwise_cons.mp hnd).1 s hmem
      rw [lookupSubport_cons_of_neg a t s.portID hne]
      exact ih (List.pairwise_cons.mp hnd).2 hmem

theorem lookupSubport_append (l1 l2 : List Subport) (id : String) :
    lookupSubport (l1 ++ l2) id = (lookupSubport l1 id).or (lookupSubport l2 id) :=
  List.find?_append

theorem lookupSubport_filter_key (l : List Subport) (q : String → Bool) (id : String) :
    lookupSubport (l.filter fun s => q s.portID) id =
      if q id then lookupSubport l id else none := by
  induction l with
  | nil => simp [lookupSubport_nil]
  | cons a t ih =>
    by_cases hk : a.portID = id
    · by_cases hq : q a.portID
      · rw [List.filter_cons_of_pos (by simpa using hq),
          lookupSubport_cons_of_pos a _ id hk,
          if_pos (hk ▸ hq), lookupSubport_cons_of_pos a t id hk]
      · rw [List.filter_cons_of_neg (by simpa using hq), ih,
          if_neg (by rw [← hk]; exact hq), if_neg (by rw [← hk]; exact hq)]
    · by_cases hq : q a.portID
      · rw [List.filter_cons_of_pos (by simpa using hq),
          lookupSubport_cons_of_neg a _ id hk, ih,
          lookupSubport_cons_of_neg a t id hk]
      · rw [List.filter_cons_of_neg (by simpa using hq), ih,
          lookupSubport_cons_of_neg a t id hk]

theorem lookupSubport_filter_nodup (l : List Subport) (p : Subport → Bool) (id : String)
    (hnd : keysNodup l) :
    lookupSubport (l.filter p) id =
      (lookupSubport l id).bind (fun s => if p s then some s else none) := by
  induction l with
  | nil => simp [lookupSubport_nil]
  | cons a t ih =>
    have hnd' := List.pairwise_cons.mp hnd
    by_cases hk : a.portID = id
    · by_cases hp : p a
      · rw [List.filter_cons_of_pos hp, lookupSubport_cons_of_pos a _ id hk,
          lookupSubport_cons_of_pos a t id hk]
        simp [hp]
      · rw [List.filter_cons_of_neg (by simpa using hp),
          lookupSubport_cons_of_pos a t id hk, ih hnd'.2]
        have ht : lookupSubport t id = none := by
          rw [lookupSubport_eq_none_iff]
          intro s hs h
          exact hnd'.1 s hs (by rw [hk, ← h])
        rw [ht]
        simp [hp]
    · by_cases hp : p a
      · rw [List.filter_cons_of_pos hp, lookupSubport_cons_of_neg a _ id hk,
          lookupSubport_cons_of_neg a t id hk]
        exact ih hnd'.2
      · rw [List.filter_cons_of_neg (by simpa using hp),
          lookupSubport_cons_of_neg a t id hk]
        exact ih hnd'.2

theorem contains_eq_elem (l : List String) (a : String) : l.contains a = l.elem a := rfl

theorem contains_iff_mem (l : List String) (a : String) : l.contains a = true ↔ a ∈ l := by
  rw [contains_eq_elem]
  exact List.elem_iff

theorem subportNeedsAdd_iff (current : List Subport) (d : Subport) :
    subportNeedsAdd current d = true ↔
      lookupSubport current d.portID = none ∨
        ∃ c, lookupSubport current d.portID = some c ∧ subportChanged c d = true := by
  unfold subportNeedsAdd
  rcases h : lookupSubport current d.portID with _ | c <;> simp

theorem subportIsChanged_iff (current : List Subport) (d : Subport) :
    subportIsChanged current d = true ↔
      ∃ c, lookupSubport current d.portID = some c ∧ subportChanged c d = true := by
  unfold subportIsChanged
  rcases h : lookupSubport current d.portID with _ | c <;> simp

/-- The membership characterization of the `toAdd` set computed by
`reconcileSubports`. -/
theorem mem_toAdd_iff (current desired : List Subport) (s : Subport) :
    s ∈ toAdd current desired ↔
      s ∈ desired ∧ (lookupSubport current s.portID = none ∨
        ∃ c, lookupSubport current s.portID = some c ∧ subportChanged c s = true) := by
  rw [toAdd, List.mem_filter, subportNeedsAdd_iff]

/-- The membership characterization of the immediate (changed-member)
removals performed by `reconcileSubports`. -/
theorem mem_immediateRemovals_iff (current desired : List Subport) (p : String) :
    p ∈ immediateRemovals current desired ↔
      ∃ d ∈ desired, d.portID = p ∧
        ∃ c, lookupSubport current p = some c ∧ subportChanged c d = true := by
  unfold immediateRemovals
  rw [List.mem_map]
  constructor
  · rintro ⟨d, hd, rfl⟩
    obtain ⟨hmem, hch⟩ := List.mem_filter.mp hd
    exact ⟨d, hmem, rfl, (subportIsChanged_iff current d).mp hch⟩
  · rintro ⟨d, hmem, rfl, hex⟩
    exact ⟨d, List.mem_filter.mpr ⟨hmem, (subportIsChanged_iff current d).mpr hex⟩, rfl⟩

/-- The membership characterization of the `toRemove` set computed by
`reconcileSubports`. -/
theorem mem_toRemove_iff (current desired : List Subport) (p : String) :
    p ∈ toRemove current desired ↔
      ∃ c ∈ current, c.portID = p ∧ lookupSubport desired p = none := by
  unfold toRemove
  rw [List.mem_map]
  constructor
  · rintro ⟨c, hc, rfl⟩
    obtain ⟨hmem, hnone⟩ := List.mem_filter.mp hc
    exact ⟨c, hmem, rfl, by simpa using hnone⟩
  · rintro ⟨c, hmem, rfl, hnone⟩
    exact ⟨c, List.mem_filter.mpr ⟨hmem, by simpa using hnone⟩, rfl⟩

/-- The membership characterization of all removals performed by one run of
`reconcileSubports`. -/
theorem mem_allRemovalIDs_iff (current desired : List Subport) (p : String) :
    p ∈ allRemovalIDs current desired ↔
      (∃ d ∈ desired, d.portID = p ∧
        ∃ c, lookupSubport current p = some c ∧ subportChanged c d = true) ∨
      (∃ c ∈ current, c.portID = p ∧ lookupSubport desired p = none) := by
  rw [allRemovalIDs, List.mem_append, mem_immediateRemovals_iff, mem_toRemove_iff]

theorem lookupSubport_applyRemovals (state : List Subport) (ids : List String) (id : String) :
    lookupSubport (applyRemovals state ids) id =
      if ids.contains id then none else lookupSubport state id := by
  rw [applyRemovals, lookupSubport_filter_key state (fun x => !(ids.contains x)) id]
  by_cases h : ids.contains id <;> simp [h]

theorem subport_eq_of_not_changed (c d : Subport) (hk : c.portID = d.portID)
    (h : subportChanged c d = false) : c = d := by
  simp only [subportChanged, Bool.or_eq_false_iff, bne_eq_false_iff_eq] at h
  cases c; cases d
  simp_all

/-- Applying the removals and then the additions computed by
`reconcileSubports` to the observed state yields, key by key, exactly the
desired state. -/
theorem lookup_after_reconcile (current desired : List Subport)
    (hndD : keysNodup desired) (id : String) :
    lookupSubport
      (applyAdditions (applyRemovals current (allRemovalIDs current desired))
        (toAdd current desired)) id
      = lookupSubport desired id := by
  rw [applyAdditions, lookupSubport_append, lookupSubport_applyRemovals,
    toAdd, lookupSubport_filter_nodup desired (subportNeedsAdd current) id hndD]
  rcases hD : lookupSubport desired id with _ | d
  · by_cases hcon : (allRemovalIDs current desired).contains id
    · rw [if_pos hcon]; simp
    · rw [if_neg hcon]
      rcases hcur : lookupSubport current id with _ | c
      · simp
      · exfalso
        obtain ⟨hcmem, hckey⟩ := lookupSubport_key current id c hcur
        have hidR : id ∈ allRemovalIDs current desired :=
          (mem_allRemovalIDs_iff current desired id).mpr (Or.inr ⟨c, hcmem, hckey, hD⟩)
        exact hcon ((contains_iff_mem _ id).mpr hidR)
  · obtain ⟨hdmem, hdkey⟩ := lookupSubport_key desired id d hD
    rcases hcur : lookupSubport current id with _ | c
    · have hna : subportNeedsAdd current d = true :=
        (subportNeedsAdd_iff current d).mpr (Or.inl (by rw [hdkey]; exact hcur))
      by_cases hcon : (allRemovalIDs current desired).contains id
      · rw [if_pos hcon]; simp [hna]
      · rw [if_neg hcon]; simp [hna]
    · by_cases hch : subportChanged c d
      · have hna : subportNeedsAdd current d = true :=
          (subportNeedsAdd_iff current d).mpr
            (Or.inr ⟨c, by rw [hdkey]; exact hcur, hch⟩)
        have hidR : id ∈ allRemovalIDs current desired :=
          (mem_allRemovalIDs_iff current desired id).mpr
            (Or.inl ⟨d, hdmem, hdkey, c, hcur, hch⟩)
        have hcon : (allRemovalIDs current desired).contains id = true :=
          (contains_iff_mem _ id).mpr hidR
        rw [if_pos hcon]; simp [hna]
      · have hcd : c = d :=
          subport_eq_of_not_changed c d
            (by rw [(lookupSubport_key current id c hcur).2, hdkey])
            (by simpa using hch)
        have hna : subportNeedsAdd current d = false := by
          unfold subportNeedsAdd
          rw [hdkey, hcur]
          simpa [hcd] using hch
        have hcon : (allRemovalIDs current desired).contains id = false := by
          rw [Bool.eq_false_iff]
          intro hcontra
          have hmem := (contains_iff_mem _ id).mp hcontra
          rcases (mem_allRemovalIDs_iff current desired id).mp hmem with
            ⟨d', hd'mem, hd'key, c', hc'look, hc'ch⟩ | ⟨c', hc'mem, hc'key, hnone⟩
          · have hlook' : lookupSubport desired id = some d' := by
              rw [← hd'key]
              exact lookupSubport_of_mem_nodup desired d' hndD hd'mem
            rw [hD] at hlook'
            injection hlook' with hdd
            rw [hcur] at hc'look
            injection hc'look with hcc
            rw [← hdd, ← hcc] at hc'ch
            exact hch hc'ch
          · rw [hD] at hnone
            cases hnone
        have hcon' : ¬(allRemovalIDs current desired).contains id = true := by
          rw [hcon]; simp
        rw [if_neg hcon']
        simp [hna, hcd]

/-- C3: in `reconcileSubports`, with desired set D and observed set O keyed
by port ID, the add set is (D\O) together with members present in both
whose segmentation type or ID differ; the set of removed port IDs is (O\D)
together with those same changed members; every removal remote call is
issued before the addition remote call; and applying the removals then the
additions to O yields, key by key, exactly D. -/
theorem reconcileSubports_diff_spec (current desired : List Subport)
    (hndD : keysNodup desired) :
    (∀ s, s ∈ toAdd current desired ↔
      s ∈ desired ∧ (lookupSubport current s.portID = none ∨
        ∃ c, lookupSubport current s.portID = some c ∧ subportChanged c s = true)) ∧
    (∀ p, p ∈ allRemovalIDs current desired ↔
      (∃ c ∈ current, c.portID = p ∧ lookupSubport desired p = none) ∨
      (∃ d ∈ desired, d.portID = p ∧
        ∃ c, lookupSubport current p = some c ∧ subportChanged c d = true)) ∧
    (∃ removes adds, (reconcileSubports current desired).calls = removes ++ adds ∧
      (∀ cl ∈ removes, cl.isRemove = true) ∧ (∀ cl ∈ adds, cl.isRemove = false)) ∧
    (∀ id, lookupSubport
        (applyAdditions (applyRemovals current (allRemovalIDs current desired))
          (toAdd current desired)) id = lookupSubport desired id) := by
  refine ⟨mem_toAdd_iff current desired, ?_, ?_, lookup_after_reconcile current desired hndD⟩
  · intro p
    rw [mem_allRemovalIDs_iff]
    exact Or.comm
  · refine ⟨(immediateRemovals current desired).map (fun p => .removeSubports [p])
        ++ (if (toRemove current desired).isEmpty then []
            else [.removeSubports (toRemove current desired)]),
      if (toAdd current desired).isEmpty then []
        else [.addSubports (toAdd current desired)], ?_, ?_, ?_⟩
    · rw [reconcileSubports, List.append_assoc]
    · intro cl hcl
      rcases List.mem_append.mp hcl with hmap | hbatch
      · obtain ⟨p, -, rfl⟩ := List.mem_map.mp hmap
        rfl
      · rcases h : (toRemove current desired).isEmpty
        · rw [h] at hbatch
          rw [List.mem_singleton.mp hbatch]
          rfl
        · rw [h] at hbatch
          cases hbatch
    · intro cl hcl
      rcases h : (toAdd current desired).isEmpty
      · rw [h] at hcl
        rw [List.mem_singleton.mp hcl]
        rfl
      · rw [h] at hcl
        cases hcl

/-- A concrete observed subport list used in witnesses: port "b" with
changed parameters and an extraneous port "c". -/
def exCurrent : List Subport := [⟨"b", "vlan", 3⟩, ⟨"c", "vlan", 4⟩]

/-- A concrete desired subport list used in witnesses: a new port "a" and
port "b" with new parameters. -/
def exDesired : List Subport := [⟨"a", "vlan", 1⟩, ⟨"b", "vlan", 2⟩]

/-- C3 witness: on concrete desired/observed sets (one new member, one
changed member, one extraneous member), applying the computed removals then
additions agrees with the desired set at key "b". -/
theorem reconcileSubports_diff_spec_witness :
    keysNodup exDesired ∧
    lookupSubport
      (applyAdditions (applyRemovals exCurrent (allRemovalIDs exCurrent exDesired))
        (toAdd exCurrent exDesired)) "b" = lookupSubport exDesired "b" :=
  ⟨by decide, (reconcileSubports_diff_spec exCurrent exDesired (by decide)).2.2.2 "b"⟩

/-- C4: re-running subport convergence on an already-converged trunk (the
observed subports agree with the desired subports key by key) computes
empty add and remove sets, issues no remote calls, and returns the OK
status with no refresh request. -/
theorem reconcileSubports_idempotent (current desired : List Subport)
    (hndD : keysNodup desired)
    (hconv : ∀ id, lookupSubport current id = lookupSubport desired id) :
    toAdd current desired = [] ∧ allRemovalIDs current desired = [] ∧
    (reconcileSubports current desired).calls = [] ∧
    (reconcileSubports current desired).status = okStatus := by
  have hpred : ∀ d ∈ desired, subportNeedsAdd current d = false := by
    intro d hd
    have hlook : lookupSubport current d.portID = some d := by
      rw [hconv]
      exact lookupSubport_of_mem_nodup desired d hndD hd
    unfold subportNeedsAdd
    rw [hlook]
    simp [subportChanged]
  have hadd : toAdd current desired = [] := by
    rw [toAdd, List.filter_eq_nil_iff]
    intro d hd
    simp [hpred d hd]
  have himm : immediateRemovals current desired = [] := by
    rw [immediateRemovals, List.map_eq_nil_iff, List.filter_eq_nil_iff]
    intro d hd
    have := hpred d hd
    unfold subportNeedsAdd at this
    unfold subportIsChanged
    rcases h : lookupSubport current d.portID with _ | c
    · simp
    · rw [h] at this
      simp_all
  have hrem : toRemove current desired = [] := by
    rw [toRemove, List.map_eq_nil_iff, List.filter_eq_nil_iff]
    intro c hc
    have hsome : (lookupSubport current c.portID).isSome := by
      rw [lookupSubport]
      rw [List.find?_isSome]
      exact ⟨c, hc, by simp⟩
    rw [hconv] at hsome
    have hne := Option.isSome_iff_ne_none.mp hsome
    simpa using hne
  refine ⟨hadd, by rw [allRemovalIDs, himm, hrem]; rfl, ?_, ?_⟩ <;>
    simp [reconcileSubports, hadd, himm, hrem, okStatus]

/-- A converged subport list used in the C4 witness. -/
def exConverged : List Subport := [⟨"a", "vlan", 1⟩, ⟨"b", "vlan", 2⟩]

/-- C4 witness: on a concrete converged state (observed = desired), the
add and remove sets are empty, no calls are issued, and the status is
OK. -/
theorem reconcileSubports_idempotent_witness :
    keysNodup exConverged ∧
    (toAdd exConverged exConverged = [] ∧
      allRemovalIDs exConverged exConverged = [] ∧
      (reconcileSubports exConverged exConverged).calls = [] ∧
      (reconcileSubports exConverged exConverged).status = okStatus) :=
  ⟨by decide,
    reconcileSubports_idempotent exConverged exConverged (by decide) (fun _ => rfl)⟩

/-! ## Lemmas about the accumulated import status -/

theorem needsReschedule_of_mem (rs : ReconcileStatus) (e : WaitEvent)
    (h : e ∈ rs.waits) : needsReschedule rs = true := by
  unfold needsReschedule
  have hne : rs.waits ≠ ∅ := Finset.ne_empty_of_mem h
  simp [hne]

theorem needsReschedule_of_error (rs : ReconcileStatus)
    (h : rs.error.isSome) : needsReschedule rs = true := by
  unfold needsReschedule
  simp [h]

theorem mergeError_isSome_left (a b : Option StatusError) (h : a.isSome) :
    (mergeError a b).isSome := by
  rcases a with _ | (⟨r, m⟩ | ⟨m⟩)
  · simp at h
  · rfl
  · rcases b with _ | (⟨r', m'⟩ | ⟨m'⟩) <;> rfl

theorem importAccum_port_wait (filter : TrunkImportFilter) (env : ImportEnv)
    (n : String) (e : WaitEvent) (href : filter.portRef = some n)
    (he : e ∈ (importDepStatus "Port" n (env.ports n)).waits) :
    e ∈ (importAccumStatus filter env).waits := by
  unfold importAccumStatus
  rw [href]
  rcases filter.projectRef with _ | m
  · simpa [mergeStatus, okStatus] using he
  · simp only [mergeStatus, okStatus]
    rw [Finset.empty_union]
    exact Finset.mem_union_left _ he

theorem importAccum_project_wait (filter : TrunkImportFilter) (env : ImportEnv)
    (n : String) (e : WaitEvent) (href : filter.projectRef = some n)
    (he : e ∈ (importDepStatus "Project" n (env.projects n)).waits) :
    e ∈ (importAccumStatus filter env).waits := by
  unfold importAccumStatus
  rw [href]
  exact Finset.mem_union_right _ he

theorem importAccum_port_error (filter : TrunkImportFilter) (env : ImportEnv)
    (n : String) (href : filter.portRef = some n)
    (he : (importDepStatus "Port" n (env.ports n)).error.isSome) :
    (importAccumStatus filter env).error.isSome := by
  unfold importAccumStatus
  rw [href]
  rcases filter.projectRef with _ | m
  · simpa [mergeStatus, okStatus, mergeError] using he
  · simp only [mergeStatus, okStatus]
    apply mergeError_isSome_left
    simpa [mergeError] using he

theorem mergeError_isSome_right (a b : Option StatusError) (h : b.isSome) :
    (mergeError a b).isSome := by
  rcases a with _ | (⟨r, m⟩ | ⟨m⟩)
  · simpa [mergeError] using h
  · rfl
  · rcases b with _ | (⟨r', m'⟩ | ⟨m'⟩)
    · simp at h
    · rfl
    · rfl

theorem importAccum_project_error (filter : TrunkImportFilter) (env : ImportEnv)
    (n : String) (href : filter.projectRef = some n)
    (he : (importDepStatus "Project" n (env.projects n)).error.isSome) :
    (importAccumStatus filter env).error.isSome := by
  unfold importAccumStatus
  rw [href]
  exact mergeError_isSome_right _ _ he

/-- C5: during import listing, a nonexistent referenced Port or Project
yields a blocking WaitingOnCreation status; one that exists but is not
Available or has no ID yields a blocking WaitingOnReady status; and only
when every set reference resolves and is ready does the operation proceed
to list remote resources. -/
theorem listOSResourcesForImport_spec (filter : TrunkImportFilter) (env : ImportEnv) :
    (∀ n, filter.portRef = some n → env.ports n = .notFound →
      ∃ rs, listOSResourcesForImport filter env = .blocked rs ∧
        WaitEvent.mk "Port" n .waitingOnCreation ∈ rs.waits) ∧
    (∀ n a i, filter.portRef = some n → env.ports n = .found a i →
      (a && i.isSome) = false →
      ∃ rs, listOSResourcesForImport filter env = .blocked rs ∧
        WaitEvent.mk "Port" n .waitingOnReady ∈ rs.waits) ∧
    (∀ n, filter.projectRef = some n → env.projects n = .notFound →
      ∃ rs, listOSResourcesForImport filter env = .blocked rs ∧
        WaitEvent.mk "Project" n .waitingOnCreation ∈ rs.waits) ∧
    (∀ n a i, filter.projectRef = some n → env.projects n = .found a i →
      (a && i.isSome) = false →
      ∃ rs, listOSResourcesForImport filter env = .blocked rs ∧
        WaitEvent.mk "Project" n .waitingOnReady ∈ rs.waits) ∧
    (∀ pid prid, listOSResourcesForImport filter env = .proceed pid prid →
      (∀ n, filter.portRef = some n → depIsReady (env.ports n) = true) ∧
      (∀ n, filter.projectRef = some n → depIsReady (env.projects n) = true)) := by
  have hblocked : ∀ e : WaitEvent, e ∈ (importAccumStatus filter env).waits →
      listOSResourcesForImport filter env = .blocked (importAccumStatus filter env) := by
    intro e he
    unfold listOSResourcesForImport
    rw [if_pos (needsReschedule_of_mem _ e he)]
  refine ⟨?_, ?_, ?_, ?_, ?_⟩
  · intro n href hnf
    have hmem : WaitEvent.mk "Port" n .waitingOnCreation ∈ (importAccumStatus filter env).waits := by
      refine importAccum_port_wait filter env n _ href ?_
      rw [hnf]
      simp [importDepStatus, waitingOnObject]
    exact ⟨importAccumStatus filter env, hblocked _ hmem, hmem⟩
  · intro n a i href hg hnr
    have hmem : WaitEvent.mk "Port" n .waitingOnReady ∈ (importAccumStatus filter env).waits := by
      refine importAccum_port_wait filter env n _ href ?_
      rw [hg]
      simp [importDepStatus, hnr, waitingOnObject]
    exact ⟨importAccumStatus filter env, hblocked _ hmem, hmem⟩
  · intro n href hnf
    have hmem : WaitEvent.mk "Project" n .waitingOnCreation ∈ (importAccumStatus filter env).waits := by
      refine importAccum_project_wait filter env n _ href ?_
      rw [hnf]
      simp [importDepStatus, waitingOnObject]
    exact ⟨importAccumStatus filter env, hblocked _ hmem, hmem⟩
  · intro n a i href hg hnr
    have hmem : WaitEvent.mk "Project" n .waitingOnReady ∈ (importAccumStatus filter env).waits := by
      refine importAccum_project_wait filter env n _ href ?_
      rw [hg]
      simp [importDepStatus, hnr, waitingOnObject]
    exact ⟨importAccumStatus filter env, hblocked _ hmem, hmem⟩
  · intro pid prid hout
    constructor
    · intro n href
      by_contra hnready
      rw [Bool.not_eq_true] at hnready
      rcases hg : env.ports n with _ | m | ⟨a, i⟩
      · have hmem : WaitEvent.mk "Port" n .waitingOnCreation ∈ (importAccumStatus filter env).waits := by
          refine importAccum_port_wait filter env n _ href ?_
          rw [hg]
          simp [importDepStatus, waitingOnObject]
        rw [hblocked _ hmem] at hout
        cases hout
      · have herr : (importAccumStatus filter env).error.isSome := by
          refine importAccum_port_error filter env n href ?_
          rw [hg]
          rfl
        rw [listOSResourcesForImport, if_pos (needsReschedule_of_error _ herr)] at hout
        cases hout
      · have hmem : WaitEvent.mk "Port" n .waitingOnReady ∈ (importAccumStatus filter env).waits := by
          refine importAccum_port_wait filter env n _ href ?_
          rw [hg] at hnready ⊢
          simp only [depIsReady] at hnready
          simp [importDepStatus, hnready, waitingOnObject]
        rw [hblocked _ hmem] at hout
        cases hout
    · intro n href
      by_contra hnready
      rw [Bool.not_eq_true] at hnready
      rcases hg : env.projects n with _ | m | ⟨a, i⟩
      · have hmem : WaitEvent.mk "Project" n .waitingOnCreation ∈ (importAccumStatus filter env).waits := by
          refine importAccum_project_wait filter env n _ href ?_
          rw [hg]
          simp [importDepStatus, waitingOnObject]
        rw [hblocked _ hmem] at hout
        cases hout
      · have herr : (importAccumStatus filter env).error.isSome := by
          refine importAccum_project_error filter env n href ?_
          rw [hg]
          rfl
        rw [listOSResourcesForImport, if_pos (needsReschedule_of_error _ herr)] at hout
        cases hout
      · have hmem : WaitEvent.mk "Project" n .waitingOnReady ∈ (importAccumStatus filter env).waits := by
          refine importAccum_project_wait filter env n _ href ?_
          rw [hg] at hnready ⊢
          simp only [depIsReady] at hnready
          simp [importDepStatus, hnready, waitingOnObject]
        rw [hblocked _ hmem] at hout
        cases hout

/-- A concrete import filter referencing a Port, used in the C5 witness. -/
def exImportFilter : TrunkImportFilter := ⟨some "parent-port", none⟩

/-- A concrete environment in which the referenced Port does not exist. -/
def exImportEnv : ImportEnv :=
  { ports := fun _ => .notFound
    projects := fun _ => .found true (some "pid") }

/-- C5 witness: with a filter referencing a nonexistent Port, import
listing blocks with a WaitingOnCreation wait for that Port. -/
theorem listOSResourcesForImport_spec_witness :
    ∃ rs, listOSResourcesForImport exImportFilter exImportEnv = .blocked rs ∧
      WaitEvent.mk "Port" "parent-port" .waitingOnCreation ∈ rs.waits :=
  (listOSResourcesForImport_spec exImportFilter exImportEnv).1 "parent-port" rfl rfl

/-- C6: when the remote create call fails with a duplicate/conflict error,
`CreateResource` classifies the error as Terminal (invalid configuration),
not as a retryable Transient error. -/
theorem createResource_conflict_terminal (e : OSError) (h : e.isConflict = true) :
    createTrunkResult (.error e) =
      .error (wrapError (.terminalMarked "InvalidConfiguration"
        ("invalid configuration creating resource: " ++ e.msg))) ∧
    ∀ rs, createTrunkResult (.error e) = .error rs →
      statusIsTerminal rs = true ∧ statusIsTransient rs = false := by
  have heq : createTrunkResult (.error e) =
      .error (wrapError (.terminalMarked "InvalidConfiguration"
        ("invalid configuration creating resource: " ++ e.msg))) := by
    simp [createTrunkResult, h]
  refine ⟨heq, fun rs hrs => ?_⟩
  rw [heq] at hrs
  injection hrs with h2
  rw [← h2]
  exact ⟨rfl, rfl⟩

/-- C6 witness: a concrete conflict error is classified Terminal. -/
theorem createResource_conflict_terminal_witness :
    OSError.isConflict (.conflictErr "duplicate trunk") = true ∧
    createTrunkResult (.error (.conflictErr "duplicate trunk")) =
      .error (wrapError (.terminalMarked "InvalidConfiguration"
        ("invalid configuration creating resource: " ++
          OSError.msg (.conflictErr "duplicate trunk")))) :=
  ⟨rfl, (createResource_conflict_terminal (.conflictErr "duplicate trunk") rfl).1⟩

/-- C7: the remote resource name used for create, adoption and update is
spec.resource.name when set, else the object's own name; and when
spec.resource.adminStateUp is unset (documented default true) and the
remote trunk's adminStateUp is already true, the update step produces no
adminStateUp update (in both variants). -/
theorem trunk_name_and_adminStateUp_defaults (obj : TrunkObject)
    (r : TrunkResourceSpec) (portID projectID : String) (os : OSTrunk) :
    (∀ n, obj.resource = some r → r.name = some n → getResourceName obj = n) ∧
    (obj.resource = some r → r.name = none → getResourceName obj = obj.name) ∧
    (obj.resource = none → getResourceName obj = obj.name) ∧
    (buildCreateOpts obj r portID projectID).name = getResourceName obj ∧
    adoptionListName obj = getResourceName obj ∧
    (handleNameUpdate obj os {}).name =
      (if os.name = getResourceName obj then none else some (getResourceName obj)) ∧
    (r.adminStateUp = none → os.adminStateUp = true →
      (handleAdminStateUpUpdate r os {}).adminStateUp = none ∧
      (updateAdminStateUpInline r os {}).adminStateUp = none) := by
  refine ⟨?_, ?_, ?_, rfl, rfl, ?_, ?_⟩
  · intro n hres hname
    simp [getResourceName, hres, hname]
  · intro hres hname
    simp [getResourceName, hres, hname]
  · intro hres
    simp [getResourceName, hres]
  · by_cases hn : os.name = getResourceName obj
    · simp [handleNameUpdate, hn]
    · simp [handleNameUpdate, hn]
  · intro hadm hup
    constructor
    · simp [handleAdminStateUpUpdate, hadm, hup]
    · simp [updateAdminStateUpInline, hadm]

/-- A concrete trunk object with an explicit resource name, used in the C7
witness. -/
def exTrunkObj : TrunkObject :=
  ⟨"k8s-name", some ⟨some "os-name", none, none⟩⟩

/-- A concrete remote trunk with adminStateUp already true. -/
def exOSTrunkUp : OSTrunk := ⟨"tid", "os-name", "", true, 3⟩

/-- C7 witness: on a concrete object with spec name "os-name" the resolved
name is "os-name", and an unset adminStateUp with remote true produces no
adminStateUp update. -/
theorem trunk_name_and_adminStateUp_defaults_witness :
    getResourceName exTrunkObj = "os-name" ∧
    (handleAdminStateUpUpdate ⟨some "os-name", none, none⟩ exOSTrunkUp {}).adminStateUp
      = none :=
  ⟨(trunk_name_and_adminStateUp_defaults exTrunkObj ⟨some "os-name", none, none⟩
      "" "" exOSTrunkUp).1 "os-name" rfl rfl,
    ((trunk_name_and_adminStateUp_defaults exTrunkObj ⟨some "os-name", none, none⟩
      "" "" exOSTrunkUp).2.2.2.2.2.2 rfl rfl).1⟩

theorem updateResourceOpts_no_change (obj : TrunkObject) (r : TrunkResourceSpec)
    (os : OSTrunk) (hn : os.name = getResourceName obj)
    (hd : os.description = r.description.getD "")
    (ha : ∀ b, r.adminStateUp = some b → b = os.adminStateUp) :
    updateResourceOpts obj r os = ({}, false) := by
  unfold updateResourceOpts
  rw [hn, hd]
  simp only [bne_self_eq_false, Bool.false_eq_true, if_false]
  rcases hadm : r.adminStateUp with _ | b
  · rfl
  · rw [ha b hadm]
    simp

/-- C8: `updateResource` returns a needs-refresh status iff it made a
successful remote update call; when the remote name, description and
adminStateUp already match the spec it makes no remote call and returns
OK; and when the update call fails it returns the wrapped error, not a
refresh. -/
theorem updateResource_refresh_iff (obj : TrunkObject) (r : TrunkResourceSpec)
    (os : OSTrunk) (callResult : Except OSError Unit)
    (hres : obj.resource = some r) :
    ((updateResource obj os callResult).status.refresh = true ↔
      ((updateResource obj os callResult).sentOpts.isSome ∧ callResult = .ok ())) ∧
    (os.name = getResourceName obj → os.description = r.description.getD "" →
      (∀ b, r.adminStateUp = some b → b = os.adminStateUp) →
      updateResource obj os callResult = ⟨none, okStatus⟩) ∧
    (∀ e, callResult = .error e → (updateResource obj os callResult).sentOpts.isSome →
      (updateResource obj os callResult).status.refresh = false ∧
      (updateResource obj os callResult).status.error.isSome) := by
  have hdef : updateResource obj os callResult =
      (let p := updateResourceOpts obj r os
       if !p.2 then ⟨none, okStatus⟩
       else
         let sent := { p.1 with revisionNumber := some os.revisionNumber }
         match callResult with
         | .ok _ => ⟨some sent, needsRefreshStatus⟩
         | .error e =>
           ⟨some sent, wrapError (if e.isConflict then
             .terminalMarked "InvalidConfiguration"
               ("invalid configuration updating resource: " ++ e.msg)
             else .plain e.msg)⟩) := by
    rw [updateResource, hres]
  refine ⟨?_, ?_, ?_⟩
  · rw [hdef]
    rcases hopts : updateResourceOpts obj r os with ⟨opts, nu⟩
    rcases nu
    · simp [okStatus]
    · rcases callResult with e | u
      · rcases he : e.isConflict <;> simp [wrapError]
      · simp [needsRefreshStatus]
  · intro hn hd ha
    rw [hdef, updateResourceOpts_no_change obj r os hn hd ha]
    rfl
  · intro e hcall
    rw [hdef, hcall]
    rcases hopts : updateResourceOpts obj r os with ⟨opts, nu⟩
    rcases nu
    · intro h
      simp at h
    · intro _
      rcases he : e.isConflict <;> simp [wrapError, classifyError]

/-- A concrete trunk object whose remote state already matches its spec,
used in the C8 witness. -/
def exMatchedObj : TrunkObject := ⟨"trunk-a", some ⟨none, none, none⟩⟩

/-- The remote trunk matching `exMatchedObj`. -/
def exMatchedOS : OSTrunk := ⟨"tid", "trunk-a", "", true, 7⟩

/-- C8 witness: on a concrete matching object/remote pair, `updateResource`
makes no remote call and returns OK. -/
theorem updateResource_refresh_iff_witness :
    updateResource exMatchedObj exMatchedOS (.ok ()) = ⟨none, okStatus⟩ :=
  (updateResource_refresh_iff exMatchedObj ⟨none, none, none⟩ exMatchedOS (.ok ())
    rfl).2.1 rfl rfl (fun b h => by cases h)

theorem mergeError_assoc (x y z : Option StatusError) :
    mergeError (mergeError x y) z = mergeError x (mergeError y z) := by
  rcases x with _ | (⟨r1, m1⟩ | ⟨m1⟩) <;> rcases y with _ | (⟨r2, m2⟩ | ⟨m2⟩) <;>
    rcases z with _ | (⟨r3, m3⟩ | ⟨m3⟩) <;> rfl

theorem mergeError_none_right (x : Option StatusError) : mergeError x none = x := by
  rcases x with _ | (⟨r, m⟩ | ⟨m⟩) <;> rfl

theorem mergeError_none_left (x : Option StatusError) : mergeError none x = x := rfl

/-- C9: the reconcile-status merge is a monoid respecting the severity
order Terminal > Transient > Waiting > OK: a Terminal operand determines
the result with the first Terminal winning and never overwritten; with no
Terminal operand a Transient operand makes the result Transient; wait
reasons are always unioned and refresh flags ORed; merge is associative;
and merging with OK on either side is the identity. -/
theorem mergeStatus_monoid :
    (∀ a b : ReconcileStatus, statusIsTerminal a = true →
      (mergeStatus a b).error = a.error ∧ statusIsTerminal (mergeStatus a b) = true) ∧
    (∀ a b : ReconcileStatus, statusIsTerminal a = false → statusIsTerminal b = true →
      (mergeStatus a b).error = b.error ∧ statusIsTerminal (mergeStatus a b) = true) ∧
    (∀ a b : ReconcileStatus, statusIsTerminal a = false → statusIsTerminal b = false →
      (statusIsTransient a = true ∨ statusIsTransient b = true) →
      statusIsTransient (mergeStatus a b) = true ∧
        statusIsTerminal (mergeStatus a b) = false) ∧
    (∀ a b : ReconcileStatus, (mergeStatus a b).waits = a.waits ∪ b.waits ∧
      (mergeStatus a b).refresh = (a.refresh || b.refresh)) ∧
    (∀ a b c : ReconcileStatus,
      mergeStatus (mergeStatus a b) c = mergeStatus a (mergeStatus b c)) ∧
    (∀ a : ReconcileStatus, mergeStatus a okStatus = a ∧ mergeStatus okStatus a = a) := by
  refine ⟨?_, ?_, ?_, fun a b => ⟨rfl, rfl⟩, ?_, ?_⟩
  · intro a b ha
    rcases a with ⟨wa, ea, ra⟩
    rcases ea with _ | (⟨r, m⟩ | ⟨m⟩)
    · simp [statusIsTerminal] at ha
    · exact ⟨rfl, rfl⟩
    · simp [statusIsTerminal] at ha
  · intro a b ha hb
    rcases a with ⟨wa, ea, ra⟩
    rcases b with ⟨wb, eb, rb⟩
    rcases eb with _ | (⟨r, m⟩ | ⟨m⟩)
    · simp [statusIsTerminal] at hb
    · rcases ea with _ | (⟨r2, m2⟩ | ⟨m2⟩)
      · exact ⟨rfl, rfl⟩
      · simp [statusIsTerminal] at ha
      · exact ⟨rfl, rfl⟩
    · simp [statusIsTerminal] at hb
  · intro a b ha hb hor
    rcases a with ⟨wa, ea, ra⟩
    rcases b with ⟨wb, eb, rb⟩
    rcases ea with _ | (⟨r2, m2⟩ | ⟨m2⟩)
    · rcases eb with _ | (⟨r3, m3⟩ | ⟨m3⟩)
      · rcases hor with h | h <;> simp [statusIsTransient] at h
      · simp [statusIsTerminal] at hb
      · exact ⟨rfl, rfl⟩
    · simp [statusIsTerminal] at ha
    · rcases eb with _ | (⟨r3, m3⟩ | ⟨m3⟩)
      · exact ⟨rfl, rfl⟩
      · simp [statusIsTerminal] at hb
      · exact ⟨rfl, rfl⟩
  · intro a b c
    show ReconcileStatus.mk _ _ _ = ReconcileStatus.mk _ _ _
    rw [ReconcileStatus.mk.injEq]
    exact ⟨Finset.union_assoc _ _ _, mergeError_assoc _ _ _, Bool.or_assoc _ _ _⟩
  · intro a
    rcases a with ⟨wa, ea, ra⟩
    constructor
    · show ReconcileStatus.mk _ _ _ = _
      simp [okStatus, mergeError_none_right]
    · show ReconcileStatus.mk _ _ _ = _
      simp [okStatus, mergeError_none_left]

/-- A concrete Terminal status used in the C9 witness. -/
def exTerminal : ReconcileStatus := ⟨∅, some (.terminal "InvalidConfiguration" "bad"), false⟩

/-- A concrete Transient status used in the C9 witness. -/
def exTransient : ReconcileStatus := ⟨∅, some (.transient "conflict"), true⟩

/-- C9 witness: merging a concrete Terminal status with a Transient one
keeps the first Terminal error. -/
theorem mergeStatus_monoid_witness :
    statusIsTerminal exTerminal = true ∧
    ((mergeStatus exTerminal exTransient).error = exTerminal.error ∧
      statusIsTerminal (mergeStatus exTerminal exTransient) = true) :=
  ⟨rfl, mergeStatus_monoid.1 exTerminal exTransient rfl⟩

/-- A concrete remote trunk with adminStateUp false, used to separate the
two adminStateUp update variants. -/
def exOSTrunkDown : OSTrunk := ⟨"tid", "trunk-a", "", false, 1⟩

/-- C10 counterexample: with spec.resource.adminStateUp unset and the
remote adminStateUp false, the first variant's inline comparison produces
no adminStateUp update while the second variant's
`handleAdminStateUpUpdate` sets it to true — the two implementations do
not compute the same result. -/
theorem adminStateUp_variants_counterexample :
    (updateAdminStateUpInline ⟨none, none, none⟩ exOSTrunkDown {}).adminStateUp = none ∧
    (handleAdminStateUpUpdate ⟨none, none, none⟩ exOSTrunkDown {}).adminStateUp
      = some true :=
  ⟨rfl, rfl⟩

/-- C10 (amended): the two adminStateUp update implementations agree
whenever spec.resource.adminStateUp is set or the remote adminStateUp is
true; only when the spec value is unset and the remote value is false do
they differ (the inline variant makes no update, the defaulting variant
sets true). -/
theorem adminStateUp_variants_amended (r : TrunkResourceSpec) (os : OSTrunk)
    (h : r.adminStateUp.isSome = true ∨ os.adminStateUp = true) :
    (updateAdminStateUpInline r os {}).adminStateUp =
      (handleAdminStateUpUpdate r os {}).adminStateUp := by
  rcases hadm : r.adminStateUp with _ | b
  · rcases h with hs | ht
    · rw [hadm] at hs
      simp at hs
    · simp [updateAdminStateUpInline, handleAdminStateUpUpdate, hadm, ht]
  · rcases b <;> rcases hos : os.adminStateUp <;>
      simp [updateAdminStateUpInline, handleAdminStateUpUpdate, hadm, hos]

/-- C10 witness (for the amended claim): with a set spec value false and
remote true, both variants request the same update. -/
theorem adminStateUp_variants_amended_witness :
    (updateAdminStateUpInline ⟨none, none, some false⟩ exOSTrunkUp {}).adminStateUp =
      (handleAdminStateUpUpdate ⟨none, none, some false⟩ exOSTrunkUp {}).adminStateUp :=
  adminStateUp_variants_amended ⟨none, none, some false⟩ exOSTrunkUp (Or.inl rfl)

end ORC
